import Mathlib

/-!
Verification of the logme HTTP observability instrumentation pipeline.

This file gives a shallow embedding, in Lean, of the core of the logme
repository: the structured log-code model (src/utils/LogUtils.ts and
src/utils/LogDecoder.ts), the redaction filter and body handling of the
server logger (src/utils/ServerLogger.ts), and the fetch interception
pipeline (src/utils/FetchLogger.ts).  JavaScript strings are modelled as
Lean strings (sequences of Unicode characters), JavaScript structured
values as an inductive JSON-like type, thrown exceptions as Except /
Option results, and the event sink as an explicitly returned list of
emitted log records.
-/

set_option maxHeartbeats 1000000
set_option maxRecDepth 100000

namespace Logme

/-- Character class for the JavaScript regular expression class [A-Z]. -/
def isUpperAZ (c : Char) : Bool := 'A' ≤ c && c ≤ 'Z'

/-- Character class for the JavaScript regular expression class \d, that is [0-9]. -/
def isDigit09 (c : Char) : Bool := '0' ≤ c && c ≤ '9'

/-- Character class for the regular expression class [IWED] used for the Severity segment. -/
def isSeverityChar (c : Char) : Bool := c == 'I' || c == 'W' || c == 'E' || c == 'D'

/-- Embedding of isValidLogCode (src/utils/LogUtils.ts, line 31): the test
of the anchored fixed-width regular expression
/^[A-Z]\x7b2\x7d\.\d\x7b4\x7d\.\d\x7b2\x7d\.\d\x7b2\x7d\.\d\x7b2\x7d\.[IWED]$/
written out position by position over the characters of the string. -/
def isValidLogCode (s : String) : Bool :=
  match s.data with
  | [e1, e2, d1, s1, s2, s3, s4, d2, c1, c2, d3, a1, a2, d4, o1, o2, d5, v] =>
    isUpperAZ e1 && isUpperAZ e2 && (d1 == '.') &&
    isDigit09 s1 && isDigit09 s2 && isDigit09 s3 && isDigit09 s4 && (d2 == '.') &&
    isDigit09 c1 && isDigit09 c2 && (d3 == '.') &&
    isDigit09 a1 && isDigit09 a2 && (d4 == '.') &&
    isDigit09 o1 && isDigit09 o2 && (d5 == '.') &&
    isSeverityChar v
  | _ => false

/-- Embedding of the JavaScript String.prototype.split call with separator
"." used by parseLogCode: splits a character list at every occurrence of
the dot character, keeping empty segments. -/
def splitOnDot : List Char → List (List Char)
  | [] => [[]]
  | c :: rest =>
    match splitOnDot rest with
    | [] => [[]]
    | h :: t => if c = '.' then [] :: h :: t else (c :: h) :: t

/-- The six string segments produced by parseLogCode. -/
structure ParsedLogCode where
  env : String
  service : String
  category : String
  action : String
  outcome : String
  severity : String
deriving DecidableEq, Repr

/-- Embedding of parseLogCode (src/utils/LogUtils.ts, line 38): returns
none when isValidLogCode fails, otherwise destructures the result of
splitting on the dot into the six segments.  For a valid code the split
always has exactly six parts, so the fallback branch is unreachable
(this is proved below as part of claim C1). -/
def parseLogCode (code : String) : Option ParsedLogCode :=
  if isValidLogCode code then
    match splitOnDot code.data with
    | [e, sv, c, a, o, v] => some ⟨⟨e⟩, ⟨sv⟩, ⟨c⟩, ⟨a⟩, ⟨o⟩, ⟨v⟩⟩
    | _ => none
  else none

/-- The four log levels of the LogLevel union type (src/types/LogTypes.ts). -/
inductive LogLevel where
  | info
  | warn
  | error
  | debug
deriving DecidableEq, Repr

/-- Embedding of mapSeverityToLogLevel (src/utils/LogUtils.ts, line 65):
the record lookup keyed by the SEVERITY catalog codes I, W, E, D.  A key
outside the record yields the JavaScript value undefined, modelled here
as none. -/
def mapSeverityToLogLevel (severity : String) : Option LogLevel :=
  if severity = "I" then some .info
  else if severity = "W" then some .warn
  else if severity = "E" then some .error
  else if severity = "D" then some .debug
  else none

end Logme

namespace Logme

/-- The ENV domain of the LOG_CODES catalog (src/enums/LogCodes.ts). -/
inductive EnvType where
  | FE
  | BE
deriving DecidableEq, Fintype, Repr

/-- Catalog code of an ENV value. -/
def EnvType.code : EnvType → String
  | .FE => "FE"
  | .BE => "BE"

/-- The SERVICE domain of the LOG_CODES catalog. -/
inductive ServiceType where
  | FETCH
  | API
  | AUTH
  | USER
  | PRODUCT
  | ORDER
  | PAYMENT
  | NOTIFICATION
  | CART
  | SHIPPING
  | INVENTORY
deriving DecidableEq, Fintype, Repr

/-- Catalog code of a SERVICE value. -/
def ServiceType.code : ServiceType → String
  | .FETCH => "1001"
  | .API => "1002"
  | .AUTH => "1003"
  | .USER => "1004"
  | .PRODUCT => "1005"
  | .ORDER => "1006"
  | .PAYMENT => "1007"
  | .NOTIFICATION => "1008"
  | .CART => "1009"
  | .SHIPPING => "1010"
  | .INVENTORY => "1011"

/-- The CATEGORY domain of the LOG_CODES catalog. -/
inductive CategoryType where
  | REQUEST
  | RESPONSE
deriving DecidableEq, Fintype, Repr

/-- Catalog code of a CATEGORY value. -/
def CategoryType.code : CategoryType → String
  | .REQUEST => "01"
  | .RESPONSE => "02"

/-- The ACTION domain of the LOG_CODES catalog. -/
inductive ActionType where
  | SEND
  | RECEIVE
  | ERROR
deriving DecidableEq, Fintype, Repr

/-- Catalog code of an ACTION value. -/
def ActionType.code : ActionType → String
  | .SEND => "01"
  | .RECEIVE => "02"
  | .ERROR => "03"

/-- The OUTCOME domain of the LOG_CODES catalog. -/
inductive OutcomeType where
  | SUCCESS
  | FAILURE
  | INVALID
  | TIMEOUT
deriving DecidableEq, Fintype, Repr

/-- Catalog code of an OUTCOME value. -/
def OutcomeType.code : OutcomeType → String
  | .SUCCESS => "01"
  | .FAILURE => "02"
  | .INVALID => "03"
  | .TIMEOUT => "04"

/-- The SEVERITY domain of the LOG_CODES catalog. -/
inductive SeverityType where
  | INFO
  | WARN
  | ERROR
  | DEBUG
deriving DecidableEq, Fintype, Repr

/-- Catalog code of a SEVERITY value. -/
def SeverityType.code : SeverityType → String
  | .INFO => "I"
  | .WARN => "W"
  | .ERROR => "E"
  | .DEBUG => "D"

/-- Embedding of generateLogCode (src/utils/LogUtils.ts, line 17): pure
template-string concatenation of the six segment codes with dots. -/
def generateLogCode (env : EnvType) (service : ServiceType) (category : CategoryType)
    (action : ActionType) (outcome : OutcomeType) (severity : SeverityType) : String :=
  env.code ++ "." ++ service.code ++ "." ++ category.code ++ "." ++ action.code ++ "." ++
    outcome.code ++ "." ++ severity.code

end Logme

namespace Logme

/-- One decoded segment as produced by decodeLogCode
(src/utils/LogDecoder.ts): catalog code, optional catalog key, and a
description with an Unknown fallback. -/
structure DecodedLogSegment where
  code : String
  key : Option String
  description : String
deriving DecidableEq, Repr

/-- The full decoded log code (src/utils/LogDecoder.ts). -/
structure DecodedLogCode where
  code : String
  env : DecodedLogSegment
  service : DecodedLogSegment
  category : DecodedLogSegment
  action : DecodedLogSegment
  outcome : DecodedLogSegment
  severity : DecodedLogSegment
deriving DecidableEq, Repr

/-- ENV_MAP of src/utils/LogDecoder.ts: catalog code to key and description. -/
def envLookup (c : String) : Option (String × String) :=
  if c = "FE" then some ("FE", "Frontend")
  else if c = "BE" then some ("BE", "Backend")
  else none

/-- SERVICE_MAP of src/utils/LogDecoder.ts: code to key and the description
built as first letter plus lowercased remainder plus " Service". -/
def serviceLookup (c : String) : Option (String × String) :=
  if c = "1001" then some ("FETCH", "Fetch Service")
  else if c = "1002" then some ("API", "Api Service")
  else if c = "1003" then some ("AUTH", "Auth Service")
  else if c = "1004" then some ("USER", "User Service")
  else if c = "1005" then some ("PRODUCT", "Product Service")
  else if c = "1006" then some ("ORDER", "Order Service")
  else if c = "1007" then some ("PAYMENT", "Payment Service")
  else if c = "1008" then some ("NOTIFICATION", "Notification Service")
  else if c = "1009" then some ("CART", "Cart Service")
  else if c = "1010" then some ("SHIPPING", "Shipping Service")
  else if c = "1011" then some ("INVENTORY", "Inventory Service")
  else none

/-- CATEGORY_MAP of src/utils/LogDecoder.ts. -/
def categoryLookup (c : String) : Option (String × String) :=
  if c = "01" then some ("REQUEST", "HTTP Request")
  else if c = "02" then some ("RESPONSE", "HTTP Response")
  else none

/-- ACTION_MAP of src/utils/LogDecoder.ts. -/
def actionLookup (c : String) : Option (String × String) :=
  if c = "01" then some ("SEND", "Send HTTP request")
  else if c = "02" then some ("RECEIVE", "Receive HTTP response")
  else if c = "03" then some ("ERROR", "Error in HTTP communication")
  else none

/-- OUTCOME_MAP of src/utils/LogDecoder.ts. -/
def outcomeLookup (c : String) : Option (String × String) :=
  if c = "01" then some ("SUCCESS", "Successful operation")
  else if c = "02" then some ("FAILURE", "Failed operation")
  else if c = "03" then some ("INVALID", "Invalid operation")
  else if c = "04" then some ("TIMEOUT", "Operation timed out")
  else none

/-- SEVERITY_MAP of src/utils/LogDecoder.ts. -/
def severityLookup (c : String) : Option (String × String) :=
  if c = "I" then some ("INFO", "Informational")
  else if c = "W" then some ("WARN", "Warning")
  else if c = "E" then some ("ERROR", "Error")
  else if c = "D" then some ("DEBUG", "Debug")
  else none

/-- Builds one DecodedLogSegment from a segment code, a catalog lookup
result and the Unknown fallback description, following the object
literals of decodeLogCode. -/
def decodeSegment (c : String) (lookup : Option (String × String)) (fallback : String) :
    DecodedLogSegment :=
  { code := c, key := lookup.map Prod.fst, description := (lookup.map Prod.snd).getD fallback }

/-- Embedding of decodeLogCode (src/utils/LogDecoder.ts, line 71): parse,
then attach catalog keys and descriptions with Unknown fallbacks; returns
none exactly when parseLogCode does. -/
def decodeLogCode (code : String) : Option DecodedLogCode :=
  match parseLogCode code with
  | none => none
  | some p => some
    { code := code
      env := decodeSegment p.env (envLookup p.env) "Unknown Environment"
      service := decodeSegment p.service (serviceLookup p.service) "Unknown Service"
      category := decodeSegment p.category (categoryLookup p.category) "Unknown Category"
      action := decodeSegment p.action (actionLookup p.action) "Unknown Action"
      outcome := decodeSegment p.outcome (outcomeLookup p.outcome) "Unknown Outcome"
      severity := decodeSegment p.severity (severityLookup p.severity) "Unknown Severity" }

end Logme

namespace Logme

/-- Decimal digit character for a value below ten. -/
def decDigitChar (d : Nat) : Char := Char.ofNat (48 + d)

/-- Accumulator loop rendering the decimal digits of a number, most
significant first; models the decimal rendering of a nonnegative integer
by a JavaScript template string.  The first argument is fuel bounding
the digit count, so that the recursion is structural. -/
def natDecAux : Nat → Nat → List Char → List Char
  | 0, _, acc => acc
  | fuel + 1, n, acc =>
    if n = 0 then acc else natDecAux fuel (n / 10) (decDigitChar (n % 10) :: acc)

/-- Decimal rendering of a natural number, as interpolation of a
nonnegative integer into a JavaScript template string produces it. -/
def natToDecStr (n : Nat) : String :=
  if n = 0 then "0" else ⟨natDecAux n n []⟩

/-- Base-36 digit character as produced by Number.prototype.toString(36):
0-9 then lowercase a-z. -/
def digit36Char (d : Nat) : Char :=
  if d < 10 then Char.ofNat (48 + d) else Char.ofNat (87 + d)

/-- Modelled from the platform: Math.random() returns a double in the
interval [0, 1), and Number.prototype.toString(36) renders it as "0" when
it is zero and otherwise as "0." followed by the finite base-36 expansion
of its fractional part (no trailing zero digits).  The expansion digit
list is the oracle input standing for the randomness. -/
def mathRandomToString36 (digits : List Nat) : String :=
  match digits with
  | [] => "0"
  | ds => "0." ++ ⟨ds.map digit36Char⟩

/-- Embedding of the JavaScript String.prototype.substring(a, b) call for
a ≤ b: the code units from index a (inclusive) to b (exclusive), clamped
to the string length. -/
def jsSubstring (s : String) (a b : Nat) : String := ⟨(s.data.drop a).take (b - a)⟩

/-- Embedding of generateCorrelationId (src/utils/LogUtils.ts, line 79):
prefix, dash, Date.now() in decimal, dash, and characters 2 to 10 of the
base-36 rendering of Math.random().  The wall clock and the randomness
are explicit oracle arguments. -/
def generateCorrelationId (pfx : String) (nowMs : Nat) (randDigits : List Nat) : String :=
  pfx ++ "-" ++ natToDecStr nowMs ++ "-" ++ jsSubstring (mathRandomToString36 randDigits) 2 10

/-- The fixed truncation marker appended by the body extraction steps. -/
def truncationMarker : String := "... (truncated)"

/-- Embedding of the text branch of logResponseContent
(src/utils/FetchLogger.ts, line 272): textData.substring(0, 1000) plus
the marker when textData.length exceeds 1000 characters. -/
def fetchTruncateText (textData : String) : String :=
  jsSubstring textData 0 1000 ++ (if 1000 < textData.data.length then truncationMarker else "")

/-- Byte length of the UTF-8 encoding of a string: models
Buffer.concat(chunks).length for a buffer holding the UTF-8 bytes of the
decoded text. -/
def utf8Len (s : String) : Nat := (s.data.map Char.utf8Size).sum

/-- Embedding of the text branch of the response body collection in
createExpressLogger (src/utils/ServerLogger.ts, line 107):
buffer.toString(utf8).substring(0, 1000) plus the marker when
buffer.length, the BYTE length, exceeds 1000.  The buffer is represented
by the text it decodes to; its byte length is the UTF-8 byte count. -/
def serverTruncateText (textData : String) : String :=
  jsSubstring textData 0 1000 ++ (if 1000 < utf8Len textData then truncationMarker else "")

end Logme

namespace Logme

/-- JavaScript structured values as seen by the redaction filter and the
event payloads: primitives, arrays, and objects as ordered key-value
lists (own enumerable string keys in insertion order). -/
inductive JsonValue where
  | null
  | bool (b : Bool)
  | num (n : Int)
  | str (s : String)
  | arr (elems : List JsonValue)
  | obj (fields : List (String × JsonValue))

/-- JavaScript falsiness of a modelled value, for the !data check at the
top of sanitizeBody.  Arrays and objects are always truthy. -/
def isFalsyJson : JsonValue → Bool
  | .null => true
  | .bool b => !b
  | .num n => n == 0
  | .str s => s == ""
  | _ => false

/-- The JavaScript test used before recursing in sanitizeBody:
typeof v === the object type, and v is not null.  True exactly for
arrays and objects in the model. -/
def isObjectNonNull : JsonValue → Bool
  | .arr _ => true
  | .obj _ => true
  | _ => false

/-- Lowercasing of a character list; models the case-insensitive flag on
the sensitive-key regular expressions by lowercasing the tested key
(the pattern letters are already lowercase). -/
def lowerChars (cs : List Char) : List Char := cs.map Char.toLower

/-- Unanchored substring test: true when needle occurs as a contiguous
run inside hay.  This is the semantics of RegExp.prototype.test for a
regular expression that is a plain character sequence. -/
def containsSub (needle : List Char) : List Char → Bool
  | [] => needle.isEmpty
  | c :: t => needle.isPrefixOf (c :: t) || containsSub needle t

/-- The remainder of hay after the first occurrence of needle, or none
when needle does not occur. -/
def afterFirstMatch (needle : List Char) : List Char → Option (List Char)
  | [] => if needle.isEmpty then some [] else none
  | c :: t =>
    if needle.isPrefixOf (c :: t) then some ((c :: t).drop needle.length)
    else afterFirstMatch needle t

/-- Embedding of the sensitiveKeys test of sanitizeBody
(src/utils/ServerLogger.ts, line 346): the key matches one of the fixed
case-insensitive patterns.  Each pattern except the social-security one
is a plain character sequence (the optional group in pass(word)? makes
that pattern equivalent to the sequence pass), so its test is substring
containment; social.*security holds when security occurs after the end
of an occurrence of social, which is equivalent to checking after the
first occurrence. -/
def isSensitiveKey (key : String) : Bool :=
  let lower := lowerChars key.data
  containsSub "pass".data lower ||
  containsSub "secret".data lower ||
  containsSub "token".data lower ||
  containsSub "auth".data lower ||
  containsSub "key".data lower ||
  containsSub "credential".data lower ||
  containsSub "ssn".data lower ||
  (match afterFirstMatch "social".data lower with
   | some rest => containsSub "security".data rest
   | none => false) ||
  containsSub "card".data lower ||
  containsSub "cvv".data lower

mutual

/-- Embedding of sanitizeBody (src/utils/ServerLogger.ts, line 337):
falsy values and non-objects are returned unchanged; arrays and objects
are shallow-cloned and each own key is processed: a sensitive key has
its value replaced by the marker, a non-null object value under a
non-sensitive key is recursed into, anything else is kept. -/
def sanitizeBody (data : JsonValue) : JsonValue :=
  if isFalsyJson data then data
  else
    match data with
    | .arr elems => .arr (sanitizeElems 0 elems)
    | .obj fields => .obj (sanitizeFields fields)
    | x => x

/-- Key iteration of sanitizeBody over an array clone: Object.keys of a
JavaScript array enumerates the decimal index strings, so each element
is processed under its index rendered in decimal. -/
def sanitizeElems (i : Nat) : List JsonValue → List JsonValue
  | [] => []
  | v :: rest =>
    (if isSensitiveKey (natToDecStr i) then .str "[REDACTED]"
     else if isObjectNonNull v then sanitizeBody v
     else v) :: sanitizeElems (i + 1) rest

/-- Key iteration of sanitizeBody over an object clone. -/
def sanitizeFields : List (String × JsonValue) → List (String × JsonValue)
  | [] => []
  | (k, v) :: rest =>
    (k, if isSensitiveKey k then .str "[REDACTED]"
        else if isObjectNonNull v then sanitizeBody v
        else v) :: sanitizeFields rest

end

/-- Embedding of sanitizeParams (src/utils/ServerLogger.ts, line 376):
object parameters are sanitized, other parameters pass through. -/
def sanitizeParams (params : List JsonValue) : List JsonValue :=
  params.map fun param => if isObjectNonNull param then sanitizeBody param else param

end Logme

namespace Logme

/-- The canonical emitted log record (LogData of src/types/LogTypes.ts):
timestamp, code, message, derived level, correlation id and optional
structured payload. -/
structure LogData where
  timestamp : String
  code : String
  message : String
  level : LogLevel
  correlationId : String
  data : Option JsonValue

/-- Embedding of createLogData (src/utils/LogUtils.ts, line 86): parse
the code, throwing (none) on failure, derive the level from the Severity
segment, and assemble the record with the build-time timestamp supplied
explicitly.  The level lookup of a parsed code never misses: the inner
none branch is unreachable, which is proved as part of claim C4. -/
def createLogData (code message correlationId : String) (data : Option JsonValue)
    (now : String) : Option LogData :=
  match parseLogCode code with
  | none => none
  | some parsed =>
    match mapSeverityToLogLevel parsed.severity with
    | none => none
    | some level =>
      some { timestamp := now, code := code, message := message, level := level,
             correlationId := correlationId, data := data }

end Logme

namespace Logme

/-- A heap value for the mutation analysis of sanitizeBody: primitives
are immediate, arrays and objects are references into a store. -/
inductive HVal where
  | null
  | bool (b : Bool)
  | num (n : Int)
  | str (s : String)
  | ref (a : Nat)
deriving DecidableEq, Repr

/-- A heap object: its array flag and its own enumerable keyed slots in
order (for arrays the keys are the decimal index strings). -/
structure HObj where
  isArr : Bool
  entries : List (String × HVal)
deriving DecidableEq, Repr

/-- A store mapping addresses to heap objects; lookup takes the first
binding for an address. -/
def storeFind (σ : List (Nat × HObj)) (a : Nat) : Option HObj :=
  (σ.find? fun p => p.fst == a).map Prod.snd

/-- JavaScript falsiness at the heap level: references (arrays and
objects) are always truthy. -/
def isFalsyHVal : HVal → Bool
  | .null => true
  | .bool b => !b
  | .num n => n == 0
  | .str s => s == ""
  | .ref _ => false

/-- One slot of the shallow clone in the heap-level rendering of
sanitizeBody: threads the store, the allocation counter and the
processed slots; a sensitive key gets the marker, a reference value
under a non-sensitive key is recursed into through the supplied
continuation, anything else is copied. -/
def sanitizeHStep
    (recur : List (Nat × HObj) → Nat → HVal → Option (List (Nat × HObj) × Nat × HVal)) :
    Option (List (Nat × HObj) × Nat × List (String × HVal)) → String × HVal →
    Option (List (Nat × HObj) × Nat × List (String × HVal))
  | none, _ => none
  | some (σ, next, done), (k, .ref b) =>
    if isSensitiveKey k then some (σ, next, done ++ [(k, .str "[REDACTED]")])
    else
      match recur σ next (.ref b) with
      | none => none
      | some (σ', next', v') => some (σ', next', done ++ [(k, v')])
  | some (σ, next, done), (k, x) =>
    if isSensitiveKey k then some (σ, next, done ++ [(k, .str "[REDACTED]")])
    else some (σ, next, done ++ [(k, x)])

/-- Heap-level rendering of sanitizeBody, used to state that the input
structure is never mutated.  Falsy values and non-references are
returned unchanged.  For a reference, the object is read, a fresh
address is allocated for the shallow clone, the cloned slots are
processed exactly as in the flat model, and the clone is appended to the
store; no existing binding is ever written.  The fuel bounds recursion
depth (cyclic inputs, which diverge in the source, exhaust it). -/
def sanitizeHVal : Nat → List (Nat × HObj) → Nat → HVal →
    Option (List (Nat × HObj) × Nat × HVal)
  | 0, _, _, _ => none
  | fuel + 1, σ, next, v =>
    if isFalsyHVal v then some (σ, next, v)
    else
      match v with
      | .ref a =>
        match storeFind σ a with
        | none => none
        | some o =>
          match o.entries.foldl (sanitizeHStep (sanitizeHVal fuel)) (some (σ, next + 1, [])) with
          | none => none
          | some (σ', next', entries') =>
            some (σ' ++ [(next, ⟨o.isArr, entries'⟩)], next', .ref next)
      | x => some (σ, next, x)

end Logme

namespace Logme

/-- FetchLoggerConfig (src/types/LogTypes.ts) after merging with the
defaults: every option resolved to a boolean. -/
structure FetchLoggerConfig where
  logFunctionName : Bool
  logRequestResponse : Bool
  logParameters : Bool
  logResponseContent : Bool
deriving DecidableEq, Repr

/-- The defaultConfig of src/utils/FetchLogger.ts, line 14. -/
def fetchDefaultConfig : FetchLoggerConfig :=
  { logFunctionName := true, logRequestResponse := true,
    logParameters := false, logResponseContent := false }

/-- The slice of a Fetch API Response observed by the pipeline.  The
content type is the value of headers.get for content-type coalesced
with the empty string; headersObj is the headersToObject rendering of
the headers; bodyText is what awaiting text() on a clone yields;
bodyJson is what awaiting json() on a clone yields, none when that
promise rejects, in which case jsonErrorMsg is the message of the
rejection. -/
structure Response where
  status : Nat
  statusText : String
  contentType : String
  headersObj : JsonValue
  bodyText : String
  bodyJson : Option JsonValue
  jsonErrorMsg : String

/-- Modelled from the Fetch standard: Response.ok is true exactly when
the status is in the 2xx range. -/
def Response.ok (r : Response) : Bool := 200 ≤ r.status && r.status ≤ 299

/-- A thrown JavaScript Error as observed by the pipeline. -/
structure JsError where
  message : String
  stack : Option String
deriving DecidableEq, Repr

/-- Resolution of the underlying fetch call: a response, or a thrown
error. -/
inductive FetchOutcome where
  | success (r : Response)
  | thrown (e : JsError)

/-- Event emission through createLogData and logToConsole: the sink is
modelled as the returned singleton list.  The codes passed by the fetch
pipeline are all generated from catalog constants and always parse, so
the none branch (createLogData throwing) is unreachable there. -/
def emitLog (code message correlationId : String) (data : Option JsonValue)
    (now : String) : List LogData :=
  match createLogData code message correlationId data now with
  | some e => [e]
  | none => []

/-- An optional string property of an object literal: a property whose
value is undefined is modelled as absent. -/
def optStrField (k : String) (v : Option String) : List (String × JsonValue) :=
  match v with
  | some s => [(k, .str s)]
  | none => []

/-- The request log code of createFetchProxy (src/utils/FetchLogger.ts,
line 72). -/
def fetchRequestLogCode : String :=
  generateLogCode .FE .FETCH .REQUEST .SEND .SUCCESS .INFO

/-- The error log code of logFetchError (src/utils/FetchLogger.ts,
line 322). -/
def fetchErrorLogCode : String :=
  generateLogCode .FE .FETCH .REQUEST .ERROR .FAILURE .ERROR

/-- Embedding of logRequestParameters (src/utils/FetchLogger.ts,
line 136).  The headers object and the body representation after the
JSON-parse attempt are supplied by the caller; nothing in the modelled
try block can throw, so the catch branch emitting a warn event has no
corresponding path here. -/
def logRequestParameters (url method : String) (headers : JsonValue)
    (body : Option JsonValue) (correlationId now : String) : List LogData :=
  emitLog (generateLogCode .FE .FETCH .REQUEST .SEND .SUCCESS .DEBUG)
    ("Request parameters for " ++ method ++ " " ++ url) correlationId
    (some (.obj ([("url", .str url), ("method", .str method), ("headers", headers)] ++
      (match body with
       | some b => [("body", b)]
       | none => [])))) now

/-- Embedding of logResponseDetails (src/utils/FetchLogger.ts, line 202):
outcome and severity are derived from Response.ok, and the response
event carries method, url, status, statusText and the rendered duration
(the caller supplies the already-rendered duration string). -/
def logResponseDetails (url method : String) (r : Response)
    (duration correlationId now : String) : List LogData :=
  let isSuccess := r.ok
  let severity := if isSuccess then SeverityType.INFO else SeverityType.WARN
  let outcome := if isSuccess then OutcomeType.SUCCESS else OutcomeType.FAILURE
  emitLog (generateLogCode .FE .FETCH .RESPONSE .RECEIVE outcome severity)
    (method ++ " response from " ++ url ++ " with status " ++ natToDecStr r.status)
    correlationId
    (some (.obj [("method", .str method), ("url", .str url),
      ("status", .num r.status), ("statusText", .str r.statusText),
      ("duration", .str duration)])) now

/-- Embedding of logResponseContent (src/utils/FetchLogger.ts, line 242):
on a clone of the response, a JSON content type is parsed (a rejection
is caught and logged as a warn event), a text content type is truncated
to the 1000-character cap, and anything else becomes the binary
placeholder.  In real execution this function is asynchronous and not
awaited, so its event can interleave after later synchronous events;
the claims proved below do not depend on its position. -/
def logResponseContent (url method : String) (r : Response)
    (correlationId now : String) : List LogData :=
  let outcome := if r.ok then OutcomeType.SUCCESS else OutcomeType.FAILURE
  if containsSub "application/json".data r.contentType.data then
    match r.bodyJson with
    | some b =>
      emitLog (generateLogCode .FE .FETCH .RESPONSE .RECEIVE outcome .DEBUG)
        ("Response content for " ++ method ++ " " ++ url) correlationId
        (some (.obj [("headers", r.headersObj), ("body", b)])) now
    | none =>
      emitLog (generateLogCode .FE .FETCH .RESPONSE .RECEIVE .FAILURE .WARN)
        "Error parsing response content" correlationId
        (some (.obj [("error", .str r.jsonErrorMsg)])) now
  else
    let body : JsonValue :=
      if containsSub "text/".data r.contentType.data then
        .str (fetchTruncateText r.bodyText)
      else
        .str ("Binary data or unsupported content type: " ++ r.contentType)
    emitLog (generateLogCode .FE .FETCH .RESPONSE .RECEIVE outcome .DEBUG)
      ("Response content for " ++ method ++ " " ++ url) correlationId
      (some (.obj [("headers", r.headersObj), ("body", body)])) now

/-- Embedding of logFetchError (src/utils/FetchLogger.ts, line 314). -/
def logFetchError (url method : String) (e : JsError)
    (duration : String) (stack : Option String) (correlationId now : String) : List LogData :=
  emitLog fetchErrorLogCode
    ("Error during " ++ method ++ " request to " ++ url) correlationId
    (some (.obj ([("method", .str method), ("url", .str url), ("error", .str e.message)] ++
      optStrField "stack" e.stack ++ [("duration", .str duration)] ++
      optStrField "calledFrom" stack))) now

/-- Embedding of logFunctionName (src/utils/FetchLogger.ts, line 351). -/
def logFunctionName (stack correlationId now : String) : List LogData :=
  emitLog (generateLogCode .FE .FETCH .REQUEST .SEND .SUCCESS .DEBUG)
    "Fetch called from function" correlationId
    (some (.obj [("calledFrom", .str stack)])) now

/-- Embedding of the apply trap of createFetchProxy
(src/utils/FetchLogger.ts, lines 60 to 124) for one exchange, as a pure
function from the merged configuration, the call data, the captured
stack line, the generated correlation id, the rendered duration, the
build timestamp, and the resolution of the underlying call, to the list
of emitted events in order together with the propagated resolution.
When request and response logging is enabled a request event (and
optionally a parameters event) precedes the await; after a resolution
the response event, the optional content event and the optional
call-site event follow; after a rejection the error event is emitted
and the same error is re-thrown. -/
def fetchProxyApply (cfg : FetchLoggerConfig) (url method : String)
    (stack : Option String) (reqHeaders : JsonValue) (reqBody : Option JsonValue)
    (correlationId duration now : String) (outcome : FetchOutcome) :
    List LogData × FetchOutcome :=
  let requestEvents :=
    if cfg.logRequestResponse then
      emitLog fetchRequestLogCode (method ++ " request to " ++ url) correlationId
        (some (.obj ([("method", .str method), ("url", .str url)] ++
          optStrField "stack" stack))) now ++
      (if cfg.logParameters then
        logRequestParameters url method reqHeaders reqBody correlationId now
       else [])
    else []
  match outcome with
  | .success r =>
    let responseEvents :=
      if cfg.logRequestResponse then
        logResponseDetails url method r duration correlationId now ++
        (if cfg.logResponseContent then logResponseContent url method r correlationId now
         else [])
      else []
    let fnEvents :=
      if cfg.logFunctionName then
        match stack with
        | some s => logFunctionName s correlationId now
        | none => []
      else []
    (requestEvents ++ responseEvents ++ fnEvents, .success r)
  | .thrown e =>
    (requestEvents ++ logFetchError url method e duration stack correlationId now, .thrown e)

/-- The category segment of the code carried by an emitted event. -/
def eventCategoryCode (e : LogData) : Option String :=
  ((splitOnDot e.code.data).get? 2).map fun l => (⟨l⟩ : String)

/-- An event whose code has the RESPONSE category segment. -/
def isResponseEvent (e : LogData) : Bool := eventCategoryCode e == some "02"

/-- An event carrying the fetch error log code. -/
def isFetchErrorEvent (e : LogData) : Bool := e.code == fetchErrorLogCode

/-- An event carrying the fetch request log code. -/
def isFetchRequestEvent (e : LogData) : Bool := e.code == fetchRequestLogCode

end Logme

namespace Logme

/-- Every character of the segment is an uppercase letter. -/
def segIsUpper (l : List Char) : Prop := ∀ c ∈ l, isUpperAZ c = true

/-- Every character of the segment is a decimal digit. -/
def segIsDigits (l : List Char) : Prop := ∀ c ∈ l, isDigit09 c = true

/-- The log code grammar exactly as the specification words it: two
uppercase letters, a dot, four digits, a dot, two digits, a dot, two
digits, a dot, two digits, a dot, and one letter of I, W, E, D.  Stated
independently of the source embedding, to be compared with
isValidLogCode. -/
def LogCodeGrammar (s : String) : Prop :=
  ∃ e sv c a o v : List Char,
    s.data = e ++ '.' :: (sv ++ '.' :: (c ++ '.' :: (a ++ '.' :: (o ++ '.' :: v)))) ∧
    e.length = 2 ∧ segIsUpper e ∧
    sv.length = 4 ∧ segIsDigits sv ∧
    c.length = 2 ∧ segIsDigits c ∧
    a.length = 2 ∧ segIsDigits a ∧
    o.length = 2 ∧ segIsDigits o ∧
    v.length = 1 ∧ (∀ x ∈ v, isSeverityChar x = true)

/-- Character class [a-z0-9] of the correlation id contract. -/
def isLowerAlnum (c : Char) : Bool := ('a' ≤ c && c ≤ 'z') || isDigit09 c

/-- The correlation id format claimed by the specification: the prefix, a
dash, a nonempty run of decimal digits, a dash, and exactly eight
characters from [a-z0-9].  This is the match semantics of the anchored
regular expression of the claim. -/
def matchesCidFormat (pfx s : String) : Prop :=
  ∃ ds suf : List Char,
    s.data = pfx.data ++ '-' :: (ds ++ '-' :: suf) ∧
    ds ≠ [] ∧ (∀ c ∈ ds, isDigit09 c = true) ∧
    suf.length = 8 ∧ (∀ c ∈ suf, isLowerAlnum c = true)

end Logme

namespace Logme

theorem isUpperAZ_ne_dot {c : Char} (h : isUpperAZ c = true) : ¬(c = '.') := by
  intro hc; subst hc; exact absurd h (by decide)

theorem isDigit09_ne_dot {c : Char} (h : isDigit09 c = true) : ¬(c = '.') := by
  intro hc; subst hc; exact absurd h (by decide)

theorem isSeverityChar_ne_dot {c : Char} (h : isSeverityChar c = true) : ¬(c = '.') := by
  intro hc; subst hc; exact absurd h (by decide)

theorem splitOnDot_shape (e1 e2 s1 s2 s3 s4 c1 c2 a1 a2 o1 o2 v : Char)
    (he1 : ¬(e1 = '.')) (he2 : ¬(e2 = '.')) (hs1 : ¬(s1 = '.')) (hs2 : ¬(s2 = '.'))
    (hs3 : ¬(s3 = '.')) (hs4 : ¬(s4 = '.')) (hc1 : ¬(c1 = '.')) (hc2 : ¬(c2 = '.'))
    (ha1 : ¬(a1 = '.')) (ha2 : ¬(a2 = '.')) (ho1 : ¬(o1 = '.')) (ho2 : ¬(o2 = '.'))
    (hv : ¬(v = '.')) :
    splitOnDot [e1, e2, '.', s1, s2, s3, s4, '.', c1, c2, '.', a1, a2, '.', o1, o2, '.', v] =
      [[e1, e2], [s1, s2, s3, s4], [c1, c2], [a1, a2], [o1, o2], [v]] := by
  simp [splitOnDot, he1, he2, hs1, hs2, hs3, hs4, hc1, hc2, ha1, ha2, ho1, ho2, hv]

theorem valid_elim {s : String} (h : isValidLogCode s = true) :
    ∃ e1 e2 s1 s2 s3 s4 c1 c2 a1 a2 o1 o2 v : Char,
      s.data = [e1, e2, '.', s1, s2, s3, s4, '.', c1, c2, '.', a1, a2, '.', o1, o2, '.', v] ∧
      isUpperAZ e1 = true ∧ isUpperAZ e2 = true ∧
      isDigit09 s1 = true ∧ isDigit09 s2 = true ∧ isDigit09 s3 = true ∧ isDigit09 s4 = true ∧
      isDigit09 c1 = true ∧ isDigit09 c2 = true ∧
      isDigit09 a1 = true ∧ isDigit09 a2 = true ∧
      isDigit09 o1 = true ∧ isDigit09 o2 = true ∧
      isSeverityChar v = true := by
  unfold isValidLogCode at h
  split at h
  next e1 e2 d1 s1 s2 s3 s4 d2 c1 c2 d3 a1 a2 d4 o1 o2 d5 v heq =>
    simp only [Bool.and_eq_true, beq_iff_eq] at h
    obtain ⟨⟨⟨⟨⟨⟨⟨⟨⟨⟨⟨⟨⟨⟨⟨⟨⟨h1, h2⟩, hd1⟩, hs1⟩, hs2⟩, hs3⟩, hs4⟩, hd2⟩, hc1⟩, hc2⟩, hd3⟩,
      ha1⟩, ha2⟩, hd4⟩, ho1⟩, ho2⟩, hd5⟩, hv⟩ := h
    subst hd1; subst hd2; subst hd3; subst hd4; subst hd5
    exact ⟨e1, e2, s1, s2, s3, s4, c1, c2, a1, a2, o1, o2, v, heq, h1, h2, hs1, hs2, hs3, hs4,
      hc1, hc2, ha1, ha2, ho1, ho2, hv⟩
  next => exact absurd h (by simp)

theorem valid_of_shape (e1 e2 s1 s2 s3 s4 c1 c2 a1 a2 o1 o2 v : Char)
    (h1 : isUpperAZ e1 = true) (h2 : isUpperAZ e2 = true)
    (hs1 : isDigit09 s1 = true) (hs2 : isDigit09 s2 = true)
    (hs3 : isDigit09 s3 = true) (hs4 : isDigit09 s4 = true)
    (hc1 : isDigit09 c1 = true) (hc2 : isDigit09 c2 = true)
    (ha1 : isDigit09 a1 = true) (ha2 : isDigit09 a2 = true)
    (ho1 : isDigit09 o1 = true) (ho2 : isDigit09 o2 = true)
    (hv : isSeverityChar v = true) :
    isValidLogCode ⟨[e1, e2, '.', s1, s2, s3, s4, '.', c1, c2, '.', a1, a2, '.', o1, o2, '.', v]⟩ = true := by
  simp [isValidLogCode, h1, h2, hs1, hs2, hs3, hs4, hc1, hc2, ha1, ha2, ho1, ho2, hv]

theorem parse_of_shape (e1 e2 s1 s2 s3 s4 c1 c2 a1 a2 o1 o2 v : Char)
    (h1 : isUpperAZ e1 = true) (h2 : isUpperAZ e2 = true)
    (hs1 : isDigit09 s1 = true) (hs2 : isDigit09 s2 = true)
    (hs3 : isDigit09 s3 = true) (hs4 : isDigit09 s4 = true)
    (hc1 : isDigit09 c1 = true) (hc2 : isDigit09 c2 = true)
    (ha1 : isDigit09 a1 = true) (ha2 : isDigit09 a2 = true)
    (ho1 : isDigit09 o1 = true) (ho2 : isDigit09 o2 = true)
    (hv : isSeverityChar v = true) :
    parseLogCode ⟨[e1, e2, '.', s1, s2, s3, s4, '.', c1, c2, '.', a1, a2, '.', o1, o2, '.', v]⟩ =
      some ⟨⟨[e1, e2]⟩, ⟨[s1, s2, s3, s4]⟩, ⟨[c1, c2]⟩, ⟨[a1, a2]⟩, ⟨[o1, o2]⟩, ⟨[v]⟩⟩ := by
  have hvalid := valid_of_shape e1 e2 s1 s2 s3 s4 c1 c2 a1 a2 o1 o2 v
    h1 h2 hs1 hs2 hs3 hs4 hc1 hc2 ha1 ha2 ho1 ho2 hv
  have hsplit := splitOnDot_shape e1 e2 s1 s2 s3 s4 c1 c2 a1 a2 o1 o2 v
    (isUpperAZ_ne_dot h1) (isUpperAZ_ne_dot h2)
    (isDigit09_ne_dot hs1) (isDigit09_ne_dot hs2) (isDigit09_ne_dot hs3) (isDigit09_ne_dot hs4)
    (isDigit09_ne_dot hc1) (isDigit09_ne_dot hc2)
    (isDigit09_ne_dot ha1) (isDigit09_ne_dot ha2)
    (isDigit09_ne_dot ho1) (isDigit09_ne_dot ho2)
    (isSeverityChar_ne_dot hv)
  unfold parseLogCode
  rw [if_pos hvalid]
  show (match splitOnDot [e1, e2, '.', s1, s2, s3, s4, '.', c1, c2, '.', a1, a2, '.', o1, o2, '.', v] with
    | [e, sv, c, a, o, v] => some (⟨⟨e⟩, ⟨sv⟩, ⟨c⟩, ⟨a⟩, ⟨o⟩, ⟨v⟩⟩ : ParsedLogCode)
    | _ => none) = _
  rw [hsplit]

theorem valid_of_grammar {s : String} (hg : LogCodeGrammar s) : isValidLogCode s = true := by
  obtain ⟨e, sv, c, a, o, v, heq, he, hue, hsv, hdsv, hc, hdc, ha, hda, ho, hdo, hv, hsev⟩ := hg
  obtain ⟨e1, e2, rfl⟩ := List.length_eq_two.mp he
  obtain ⟨s1, sv, rfl⟩ : ∃ x t, sv = x :: t := by
    cases sv with
    | nil => simp at hsv
    | cons x t => exact ⟨x, t, rfl⟩
  obtain ⟨s2, sv, rfl⟩ : ∃ x t, sv = x :: t := by
    cases sv with
    | nil => simp at hsv
    | cons x t => exact ⟨x, t, rfl⟩
  obtain ⟨s3, s4, rfl⟩ := List.length_eq_two.mp (by simpa using hsv)
  obtain ⟨c1, c2, rfl⟩ := List.length_eq_two.mp hc
  obtain ⟨a1, a2, rfl⟩ := List.length_eq_two.mp ha
  obtain ⟨o1, o2, rfl⟩ := List.length_eq_two.mp ho
  obtain ⟨v1, rfl⟩ := List.length_eq_one.mp hv
  simp only [List.cons_append, List.nil_append] at heq
  have hval := valid_of_shape e1 e2 s1 s2 s3 s4 c1 c2 a1 a2 o1 o2 v1
    (hue e1 (by simp)) (hue e2 (by simp))
    (hdsv s1 (by simp)) (hdsv s2 (by simp)) (hdsv s3 (by simp)) (hdsv s4 (by simp))
    (hdc c1 (by simp)) (hdc c2 (by simp))
    (hda a1 (by simp)) (hda a2 (by simp))
    (hdo o1 (by simp)) (hdo o2 (by simp))
    (hsev v1 (by simp))
  have hseq : s = ⟨[e1, e2, '.', s1, s2, s3, s4, '.', c1, c2, '.', a1, a2, '.', o1, o2, '.', v1]⟩ :=
    congrArg String.mk heq
  rw [hseq]
  exact hval

theorem grammar_of_valid {s : String} (h : isValidLogCode s = true) : LogCodeGrammar s := by
  obtain ⟨e1, e2, s1, s2, s3, s4, c1, c2, a1, a2, o1, o2, v, heq, h1, h2, hs1, hs2, hs3, hs4,
    hc1, hc2, ha1, ha2, ho1, ho2, hv⟩ := valid_elim h
  refine ⟨[e1, e2], [s1, s2, s3, s4], [c1, c2], [a1, a2], [o1, o2], [v],
    by simpa using heq, rfl, ?_, rfl, ?_, rfl, ?_, rfl, ?_, rfl, ?_, rfl, ?_⟩
  · intro x hx; simp at hx; rcases hx with rfl | rfl <;> assumption
  · intro x hx; simp at hx; rcases hx with rfl | rfl | rfl | rfl <;> assumption
  · intro x hx; simp at hx; rcases hx with rfl | rfl <;> assumption
  · intro x hx; simp at hx; rcases hx with rfl | rfl <;> assumption
  · intro x hx; simp at hx; rcases hx with rfl | rfl <;> assumption
  · intro x hx; simp at hx; subst hx; assumption

theorem parse_some_of_valid {s : String} (h : isValidLogCode s = true) :
    ∃ p, parseLogCode s = some p := by
  obtain ⟨e1, e2, s1, s2, s3, s4, c1, c2, a1, a2, o1, o2, v, heq, h1, h2, hs1, hs2, hs3, hs4,
    hc1, hc2, ha1, ha2, ho1, ho2, hv⟩ := valid_elim h
  have hseq : s = ⟨[e1, e2, '.', s1, s2, s3, s4, '.', c1, c2, '.', a1, a2, '.', o1, o2, '.', v]⟩ :=
    congrArg String.mk heq
  rw [hseq]
  exact ⟨_, parse_of_shape e1 e2 s1 s2 s3 s4 c1 c2 a1 a2 o1 o2 v
    h1 h2 hs1 hs2 hs3 hs4 hc1 hc2 ha1 ha2 ho1 ho2 hv⟩

theorem parse_none_iff_not_valid (s : String) :
    parseLogCode s = none ↔ isValidLogCode s = false := by
  cases hval : isValidLogCode s
  · simp [parseLogCode, hval]
  · obtain ⟨p, hp⟩ := parse_some_of_valid hval
    simp [hp]

theorem decode_none_iff_parse_none (s : String) :
    decodeLogCode s = none ↔ parseLogCode s = none := by
  unfold decodeLogCode
  cases parseLogCode s <;> simp

/-- Claim C1: a string passes isValidLogCode exactly when it matches the
six-segment grammar of two uppercase letters, four digits, two digits,
two digits, two digits and one of I, W, E, D joined by dots; and
parseLogCode and decodeLogCode return none exactly when isValidLogCode
is false (so in particular for the empty string, a wrong segment count,
a wrong per-segment width, or an unrecognized Severity letter). -/
theorem C1_valid_parse_decode (s : String) :
    (isValidLogCode s = true ↔ LogCodeGrammar s) ∧
    (parseLogCode s = none ↔ isValidLogCode s = false) ∧
    (decodeLogCode s = none ↔ isValidLogCode s = false) :=
  ⟨⟨grammar_of_valid, valid_of_grammar⟩, parse_none_iff_not_valid s,
    (decode_none_iff_parse_none s).trans (parse_none_iff_not_valid s)⟩

end Logme

namespace Logme

theorem parse_severity_mem {s : String} {p : ParsedLogCode} (h : parseLogCode s = some p) :
    p.severity = "I" ∨ p.severity = "W" ∨ p.severity = "E" ∨ p.severity = "D" := by
  have hval : isValidLogCode s = true := by
    cases hv : isValidLogCode s
    · rw [(parse_none_iff_not_valid s).mpr hv] at h; exact absurd h (by simp)
    · rfl
  obtain ⟨e1, e2, s1, s2, s3, s4, c1, c2, a1, a2, o1, o2, v, heq, h1, h2, hs1, hs2, hs3, hs4,
    hc1, hc2, ha1, ha2, ho1, ho2, hv⟩ := valid_elim hval
  have hseq : s = ⟨[e1, e2, '.', s1, s2, s3, s4, '.', c1, c2, '.', a1, a2, '.', o1, o2, '.', v]⟩ :=
    congrArg String.mk heq
  rw [hseq] at h
  rw [parse_of_shape e1 e2 s1 s2 s3 s4 c1 c2 a1 a2 o1 o2 v
    h1 h2 hs1 hs2 hs3 hs4 hc1 hc2 ha1 ha2 ho1 ho2 hv] at h
  have hp : p.severity = ⟨[v]⟩ := by
    cases h; rfl
  simp only [isSeverityChar, Bool.or_eq_true, beq_iff_eq] at hv
  rcases hv with ((rfl | rfl) | rfl) | rfl
  · exact Or.inl hp
  · exact Or.inr (Or.inl hp)
  · exact Or.inr (Or.inr (Or.inl hp))
  · exact Or.inr (Or.inr (Or.inr hp))

theorem mapSeverity_some_of_parse {s : String} {p : ParsedLogCode} (h : parseLogCode s = some p) :
    ∃ l, mapSeverityToLogLevel p.severity = some l := by
  rcases parse_severity_mem h with hs | hs | hs | hs <;> rw [hs] <;> exact ⟨_, rfl⟩

/-- Claim C4: createLogData fails (models the InvalidCodeError throw)
exactly when parseLogCode of the code is none; and on success the level
of the returned event is the fixed severity-to-level mapping of the
parsed Severity segment. -/
theorem C4_createLogData (code message cid : String) (data : Option JsonValue) (now : String) :
    (createLogData code message cid data now = none ↔ parseLogCode code = none) ∧
    (∀ ev p, createLogData code message cid data now = some ev → parseLogCode code = some p →
      mapSeverityToLogLevel p.severity = some ev.level) := by
  constructor
  · cases hp : parseLogCode code with
    | none => simp [createLogData, hp]
    | some p =>
      obtain ⟨l, hl⟩ := mapSeverity_some_of_parse hp
      simp [createLogData, hp, hl]
  · intro ev p hev hp
    obtain ⟨l, hl⟩ := mapSeverity_some_of_parse hp
    simp [createLogData, hp, hl] at hev
    rw [hl, ← hev]

/-- Witness for claim C4 at a concrete valid code: the hypotheses of the
success branch are discharged by evaluation. -/
theorem C4_createLogData_witness :
    mapSeverityToLogLevel
        (ParsedLogCode.severity ⟨"BE", "1003", "01", "01", "01", "I"⟩) =
      some (LogData.level ⟨"t", "BE.1003.01.01.01.I", "m", .info, "c", none⟩) :=
  (C4_createLogData "BE.1003.01.01.01.I" "m" "c" none "t").2
    ⟨"t", "BE.1003.01.01.01.I", "m", .info, "c", none⟩
    ⟨"BE", "1003", "01", "01", "01", "I"⟩ rfl rfl

end Logme

namespace Logme

theorem envCode_shape (e : EnvType) :
    ∃ x y, e.code.data = [x, y] ∧ isUpperAZ x = true ∧ isUpperAZ y = true := by
  cases e <;> exact ⟨_, _, rfl, by decide, by decide⟩

theorem serviceCode_shape (x : ServiceType) :
    ∃ d1 d2 d3 d4, x.code.data = [d1, d2, d3, d4] ∧ isDigit09 d1 = true ∧ isDigit09 d2 = true ∧
      isDigit09 d3 = true ∧ isDigit09 d4 = true := by
  cases x <;> exact ⟨_, _, _, _, rfl, by decide, by decide, by decide, by decide⟩

theorem categoryCode_shape (x : CategoryType) :
    ∃ d1 d2, x.code.data = [d1, d2] ∧ isDigit09 d1 = true ∧ isDigit09 d2 = true := by
  cases x <;> exact ⟨_, _, rfl, by decide, by decide⟩

theorem actionCode_shape (x : ActionType) :
    ∃ d1 d2, x.code.data = [d1, d2] ∧ isDigit09 d1 = true ∧ isDigit09 d2 = true := by
  cases x <;> exact ⟨_, _, rfl, by decide, by decide⟩

theorem outcomeCode_shape (x : OutcomeType) :
    ∃ d1 d2, x.code.data = [d1, d2] ∧ isDigit09 d1 = true ∧ isDigit09 d2 = true := by
  cases x <;> exact ⟨_, _, rfl, by decide, by decide⟩

theorem severityCode_shape (x : SeverityType) :
    ∃ v, x.code.data = [v] ∧ isSeverityChar v = true := by
  cases x <;> exact ⟨_, rfl, by decide⟩

/-- Claim C5: decoding an encoded code always succeeds and recovers the
six segment codes that were encoded, for every six-tuple of catalog
values. -/
theorem C5_decode_generate (e : EnvType) (s : ServiceType) (c : CategoryType)
    (a : ActionType) (o : OutcomeType) (v : SeverityType) :
    ∃ d, decodeLogCode (generateLogCode e s c a o v) = some d ∧
      d.env.code = e.code ∧ d.service.code = s.code ∧ d.category.code = c.code ∧
      d.action.code = a.code ∧ d.outcome.code = o.code ∧ d.severity.code = v.code := by
  obtain ⟨e1, e2, hee, he1, he2⟩ := envCode_shape e
  obtain ⟨s1, s2, s3, s4, hss, hs1, hs2, hs3, hs4⟩ := serviceCode_shape s
  obtain ⟨c1, c2, hcc, hc1, hc2⟩ := categoryCode_shape c
  obtain ⟨a1, a2, haa, ha1, ha2⟩ := actionCode_shape a
  obtain ⟨o1, o2, hoo, ho1, ho2⟩ := outcomeCode_shape o
  obtain ⟨v1, hvv, hv1⟩ := severityCode_shape v
  have hdata : (generateLogCode e s c a o v).data =
      [e1, e2, '.', s1, s2, s3, s4, '.', c1, c2, '.', a1, a2, '.', o1, o2, '.', v1] := by
    simp [generateLogCode, String.data_append, hee, hss, hcc, haa, hoo, hvv]
  have hgen : generateLogCode e s c a o v =
      ⟨[e1, e2, '.', s1, s2, s3, s4, '.', c1, c2, '.', a1, a2, '.', o1, o2, '.', v1]⟩ :=
    congrArg String.mk hdata
  have hparse : parseLogCode (generateLogCode e s c a o v) =
      some ⟨⟨[e1, e2]⟩, ⟨[s1, s2, s3, s4]⟩, ⟨[c1, c2]⟩, ⟨[a1, a2]⟩, ⟨[o1, o2]⟩, ⟨[v1]⟩⟩ := by
    rw [hgen]
    exact parse_of_shape e1 e2 s1 s2 s3 s4 c1 c2 a1 a2 o1 o2 v1
      he1 he2 hs1 hs2 hs3 hs4 hc1 hc2 ha1 ha2 ho1 ho2 hv1
  refine ⟨_, by rw [decodeLogCode, hparse], ?_, ?_, ?_, ?_, ?_, ?_⟩
  · exact (congrArg String.mk hee).symm
  · exact (congrArg String.mk hss).symm
  · exact (congrArg String.mk hcc).symm
  · exact (congrArg String.mk haa).symm
  · exact (congrArg String.mk hoo).symm
  · exact (congrArg String.mk hvv).symm

end Logme

namespace Logme

theorem toNat_le_of_char_le {a b : Char} (h : a ≤ b) : a.toNat ≤ b.toNat := by
  rw [Char.le_def, UInt32.le_def, BitVec.le_def] at h
  exact h

theorem toLower_of_digit {c : Char} (h : isDigit09 c = true) : Char.toLower c = c := by
  simp only [isDigit09, Bool.and_eq_true, decide_eq_true_eq] at h
  have h9 : c.toNat ≤ 57 := toNat_le_of_char_le h.2
  unfold Char.toLower
  rw [if_neg]
  intro hcond
  omega

end Logme

namespace Logme

theorem mem_of_isPrefixOf {l1 l2 : List Char} (h : l1.isPrefixOf l2 = true) :
    ∀ c ∈ l1, c ∈ l2 := by
  induction l1 generalizing l2 with
  | nil => simp
  | cons a as ih =>
    cases l2 with
    | nil => simp [List.isPrefixOf] at h
    | cons b bs =>
      rw [List.isPrefixOf_cons₂] at h
      simp only [Bool.and_eq_true, beq_iff_eq] at h
      intro c hc
      rcases List.mem_cons.mp hc with rfl | hc
      · rw [h.1]; exact List.mem_cons_self b bs
      · exact List.mem_cons_of_mem b (ih h.2 c hc)

theorem mem_of_containsSub {n h : List Char} (hc : containsSub n h = true) :
    ∀ c ∈ n, c ∈ h := by
  induction h with
  | nil =>
    simp [containsSub, List.isEmpty_iff] at hc
    subst hc; simp
  | cons x t ih =>
    rw [containsSub] at hc
    simp only [Bool.or_eq_true] at hc
    rcases hc with hpre | htail
    · exact mem_of_isPrefixOf hpre
    · intro c hcn; exact List.mem_cons_of_mem x (ih htail c hcn)

theorem containsSub_of_afterFirstMatch {n h r : List Char}
    (ha : afterFirstMatch n h = some r) : containsSub n h = true := by
  induction h with
  | nil =>
    rw [afterFirstMatch] at ha
    by_cases he : n.isEmpty
    · simp [containsSub, he]
    · simp [he] at ha
  | cons x t ih =>
    rw [afterFirstMatch] at ha
    rw [containsSub]
    by_cases hp : n.isPrefixOf (x :: t) = true
    · simp [hp]
    · simp only [Bool.not_eq_true] at hp
      rw [hp]
      simp only [Bool.false_or]
      rw [if_neg (by simp [hp])] at ha
      exact ih ha

theorem not_containsSub_digits (pat : List Char) {key : List Char}
    (hk : ∀ c ∈ key, isDigit09 c = true) (x : Char) (hx : x ∈ pat) (hxd : isDigit09 x = false) :
    containsSub pat (lowerChars key) = false := by
  cases hcs : containsSub pat (lowerChars key)
  · rfl
  · exfalso
    have hmem := mem_of_containsSub hcs x hx
    simp only [lowerChars, List.mem_map] at hmem
    obtain ⟨c, hc, hcl⟩ := hmem
    rw [toLower_of_digit (hk c hc)] at hcl
    subst hcl
    rw [hk c hc] at hxd
    exact Bool.true_eq_false.mp hxd

theorem isSensitiveKey_of_digits {key : String} (hk : ∀ c ∈ key.data, isDigit09 c = true) :
    isSensitiveKey key = false := by
  have h1 := not_containsSub_digits "pass".data hk 'p' (by decide) (by decide)
  have h2 := not_containsSub_digits "secret".data hk 's' (by decide) (by decide)
  have h3 := not_containsSub_digits "token".data hk 't' (by decide) (by decide)
  have h4 := not_containsSub_digits "auth".data hk 'a' (by decide) (by decide)
  have h5 := not_containsSub_digits "key".data hk 'k' (by decide) (by decide)
  have h6 := not_containsSub_digits "credential".data hk 'c' (by decide) (by decide)
  have h7 := not_containsSub_digits "ssn".data hk 's' (by decide) (by decide)
  have h9 := not_containsSub_digits "card".data hk 'c' (by decide) (by decide)
  have h10 := not_containsSub_digits "cvv".data hk 'c' (by decide) (by decide)
  have hsoc : afterFirstMatch "social".data (lowerChars key.data) = none := by
    cases haf : afterFirstMatch "social".data (lowerChars key.data) with
    | none => rfl
    | some r =>
      have hcs := containsSub_of_afterFirstMatch haf
      rw [not_containsSub_digits "social".data hk 's' (by decide) (by decide)] at hcs
      exact absurd hcs (by simp)
  simp only [isSensitiveKey, h1, h2, h3, h4, h5, h6, h7, h9, h10, hsoc, Bool.or_self,
    Bool.or_false, Bool.false_or]

theorem isDigit09_decDigitChar {d : Nat} (h : d < 10) : isDigit09 (decDigitChar d) = true := by
  interval_cases d <;> decide

theorem natDecAux_digits (fuel : Nat) :
    ∀ n acc, (∀ c ∈ acc, isDigit09 c = true) → ∀ c ∈ natDecAux fuel n acc, isDigit09 c = true := by
  induction fuel with
  | zero => intro n acc hacc; simpa [natDecAux] using hacc
  | succ f ih =>
    intro n acc hacc c hc
    by_cases hn : n = 0
    · rw [natDecAux, if_pos hn] at hc
      exact hacc c hc
    · rw [natDecAux, if_neg hn] at hc
      refine ih (n / 10) _ ?_ c hc
      intro x hx
      rcases List.mem_cons.mp hx with rfl | hx
      · exact isDigit09_decDigitChar (Nat.mod_lt _ (by omega))
      · exact hacc x hx

theorem natToDecStr_digits (n : Nat) : ∀ c ∈ (natToDecStr n).data, isDigit09 c = true := by
  rw [natToDecStr]
  by_cases hn : n = 0
  · rw [if_pos hn]
    intro c hc
    simp at hc
    subst hc; decide
  · rw [if_neg hn]
    exact natDecAux_digits n n [] (by simp)

theorem sanitizeBody_arr (l : List JsonValue) :
    sanitizeBody (.arr l) = .arr (sanitizeElems 0 l) := rfl

theorem sanitizeBody_obj (fs : List (String × JsonValue)) :
    sanitizeBody (.obj fs) = .obj (sanitizeFields fs) := rfl

theorem sanitizeBody_scalar (v : JsonValue) (h : isObjectNonNull v = false) :
    sanitizeBody v = v := by
  cases v with
  | null => rfl
  | bool b => cases b <;> rfl
  | num n =>
    rw [sanitizeBody]
    split
    all_goals first
      | rfl
      | (intro _ h; exact JsonValue.noConfusion h)
  | str s =>
    rw [sanitizeBody]
    split
    all_goals first
      | rfl
      | (intro _ h; exact JsonValue.noConfusion h)
  | arr l => simp [isObjectNonNull] at h
  | obj fs => simp [isObjectNonNull] at h

theorem isObjectNonNull_sanitizeBody {v : JsonValue} (h : isObjectNonNull v = true) :
    isObjectNonNull (sanitizeBody v) = true := by
  cases v with
  | arr l => rw [sanitizeBody_arr]; rfl
  | obj fs => rw [sanitizeBody_obj]; rfl
  | null => simp [isObjectNonNull] at h
  | bool b => simp [isObjectNonNull] at h
  | num n => simp [isObjectNonNull] at h
  | str s => simp [isObjectNonNull] at h

theorem sanitizeElems_eq_map (i : Nat) (l : List JsonValue) :
    sanitizeElems i l = l.map fun v => if isObjectNonNull v then sanitizeBody v else v := by
  induction l generalizing i with
  | nil => rfl
  | cons v rest ih =>
    rw [sanitizeElems, isSensitiveKey_of_digits (natToDecStr_digits i), ih (i + 1)]
    simp

theorem sanitizeFields_eq_map (fs : List (String × JsonValue)) :
    sanitizeFields fs = fs.map fun kv =>
      (kv.fst, if isSensitiveKey kv.fst then .str "[REDACTED]"
               else if isObjectNonNull kv.snd then sanitizeBody kv.snd else kv.snd) := by
  induction fs with
  | nil => rfl
  | cons kv rest ih =>
    obtain ⟨k, v⟩ := kv
    rw [sanitizeFields, ih]
    rfl

end Logme

namespace Logme

theorem sanitize_idem_aux : ∀ n v, sizeOf v ≤ n → sanitizeBody (sanitizeBody v) = sanitizeBody v := by
  intro n
  induction n with
  | zero =>
    intro v hv
    cases v <;> simp at hv
  | succ n ih =>
    intro v hv
    cases v with
    | null => rfl
    | bool b => cases b <;> rfl
    | num m =>
      rw [sanitizeBody_scalar (.num m) rfl, sanitizeBody_scalar (.num m) rfl]
    | str s =>
      rw [sanitizeBody_scalar (.str s) rfl, sanitizeBody_scalar (.str s) rfl]
    | arr l =>
      rw [sanitizeBody_arr, sanitizeBody_arr, sanitizeElems_eq_map, sanitizeElems_eq_map,
        List.map_map]
      congr 1
      apply List.map_congr_left
      intro x hx
      have hsz : sizeOf x ≤ n := by
        have h1 := List.sizeOf_lt_of_mem hx
        have h2 : sizeOf (JsonValue.arr l) = 1 + sizeOf l := by simp
        omega
      by_cases hox : isObjectNonNull x = true
      · simp only [Function.comp, hox, if_true, isObjectNonNull_sanitizeBody hox]
        exact ih x hsz
      · simp only [Bool.not_eq_true] at hox
        simp [Function.comp, hox]
    | obj fs =>
      rw [sanitizeBody_obj, sanitizeBody_obj, sanitizeFields_eq_map, sanitizeFields_eq_map,
        List.map_map]
      congr 1
      apply List.map_congr_left
      intro kv hkv
      obtain ⟨k, x⟩ := kv
      have hsz : sizeOf x ≤ n := by
        have h1 := List.sizeOf_lt_of_mem hkv
        have h2 : sizeOf (JsonValue.obj fs) = 1 + sizeOf fs := by simp
        have h3 : sizeOf (k, x) = 1 + sizeOf k + sizeOf x := by simp
        omega
      by_cases hsen : isSensitiveKey k = true
      · simp [Function.comp, hsen]
      · simp only [Bool.not_eq_true] at hsen
        by_cases hox : isObjectNonNull x = true
        · simp only [Function.comp, hsen, hox, if_true, Bool.false_eq_true, if_false,
            isObjectNonNull_sanitizeBody hox]
          simp [ih x hsz]
        · simp only [Bool.not_eq_true] at hox
          simp [Function.comp, hsen, hox]

theorem sanitizeBody_idem (v : JsonValue) : sanitizeBody (sanitizeBody v) = sanitizeBody v :=
  sanitize_idem_aux (sizeOf v) v (Nat.le_refl _)

end Logme

namespace Logme

theorem storeFind_append_of_some {σ τ : List (Nat × HObj)} {a : Nat} {o : HObj}
    (h : storeFind σ a = some o) : storeFind (σ ++ τ) a = some o := by
  rw [storeFind] at h ⊢
  rw [List.find?_append]
  cases hf : List.find? (fun p => p.fst == a) σ with
  | none => rw [hf] at h; exact absurd h (by simp)
  | some p => rw [hf] at h; simpa using h

theorem foldl_sanitizeHStep_none (f : List (Nat × HObj) → Nat → HVal →
    Option (List (Nat × HObj) × Nat × HVal)) (l : List (String × HVal)) :
    l.foldl (sanitizeHStep f) none = none := by
  induction l with
  | nil => rfl
  | cons kv rest ih => rw [List.foldl_cons]; exact ih

theorem foldl_sanitizeHStep_extends (fuel : Nat)
    (IH : ∀ σ next v out, sanitizeHVal fuel σ next v = some out → ∃ τ, out.fst = σ ++ τ) :
    ∀ (l : List (String × HVal)) (σ : List (Nat × HObj)) (next : Nat)
      (done : List (String × HVal)) (out : List (Nat × HObj) × Nat × List (String × HVal)),
      l.foldl (sanitizeHStep (sanitizeHVal fuel)) (some (σ, next, done)) = some out →
      ∃ τ, out.fst = σ ++ τ := by
  intro l
  induction l with
  | nil =>
    intro σ next done out h
    simp only [List.foldl_nil] at h
    cases h
    exact ⟨[], by simp⟩
  | cons kv rest ih =>
    intro σ next done out h
    obtain ⟨k, v⟩ := kv
    rw [List.foldl_cons] at h
    cases v with
    | ref b =>
      simp only [sanitizeHStep] at h
      by_cases hsen : isSensitiveKey k = true
      · rw [if_pos hsen] at h
        exact ih σ next _ out h
      · rw [if_neg hsen] at h
        cases hrec : sanitizeHVal fuel σ next (.ref b) with
        | none =>
          rw [hrec] at h
          rw [foldl_sanitizeHStep_none] at h
          exact absurd h (by simp)
        | some rec1 =>
          rw [hrec] at h
          obtain ⟨σ1, next1, v1⟩ := rec1
          obtain ⟨τ1, hτ1⟩ := IH σ next (.ref b) (σ1, next1, v1) hrec
          simp only at hτ1
          obtain ⟨τ2, hτ2⟩ := ih σ1 next1 _ out h
          exact ⟨τ1 ++ τ2, by rw [hτ2, hτ1, List.append_assoc]⟩
    | null =>
      simp only [sanitizeHStep] at h
      by_cases hsen : isSensitiveKey k = true
      · rw [if_pos hsen] at h; exact ih σ next _ out h
      · rw [if_neg hsen] at h; exact ih σ next _ out h
    | bool c =>
      simp only [sanitizeHStep] at h
      by_cases hsen : isSensitiveKey k = true
      · rw [if_pos hsen] at h; exact ih σ next _ out h
      · rw [if_neg hsen] at h; exact ih σ next _ out h
    | num m =>
      simp only [sanitizeHStep] at h
      by_cases hsen : isSensitiveKey k = true
      · rw [if_pos hsen] at h; exact ih σ next _ out h
      · rw [if_neg hsen] at h; exact ih σ next _ out h
    | str t =>
      simp only [sanitizeHStep] at h
      by_cases hsen : isSensitiveKey k = true
      · rw [if_pos hsen] at h; exact ih σ next _ out h
      · rw [if_neg hsen] at h; exact ih σ next _ out h

theorem sanitizeHVal_extends : ∀ (fuel : Nat) (σ : List (Nat × HObj)) (next : Nat) (v : HVal)
    (out : List (Nat × HObj) × Nat × HVal),
    sanitizeHVal fuel σ next v = some out → ∃ τ, out.fst = σ ++ τ := by
  intro fuel
  induction fuel with
  | zero => intro σ next v out h; exact absurd h (by simp [sanitizeHVal])
  | succ fuel ih =>
    intro σ next v out h
    cases v with
    | null =>
      simp only [sanitizeHVal, isFalsyHVal, if_true] at h
      cases h
      exact ⟨[], by simp⟩
    | bool b =>
      simp only [sanitizeHVal, isFalsyHVal] at h
      split at h <;> (cases h; exact ⟨[], by simp⟩)
    | num m =>
      simp only [sanitizeHVal, isFalsyHVal] at h
      split at h <;> (cases h; exact ⟨[], by simp⟩)
    | str t =>
      simp only [sanitizeHVal, isFalsyHVal] at h
      split at h <;> (cases h; exact ⟨[], by simp⟩)
    | ref a =>
      simp only [sanitizeHVal, isFalsyHVal, Bool.false_eq_true, if_false] at h
      split at h
      next => exact absurd h (by simp)
      next o hfind =>
        split at h
        next => exact absurd h (by simp)
        next σ1 next1 entries1 hfold =>
          obtain ⟨τ1, hτ1⟩ := foldl_sanitizeHStep_extends fuel ih o.entries σ (next + 1) []
            (σ1, next1, entries1) hfold
          simp only at hτ1
          cases h
          exact ⟨τ1 ++ [(next, ⟨o.isArr, entries1⟩)], by simp [hτ1, List.append_assoc]⟩

theorem sanitizeHVal_preserves {fuel : Nat} {σ : List (Nat × HObj)} {next : Nat} {v : HVal}
    {out : List (Nat × HObj) × Nat × HVal} (h : sanitizeHVal fuel σ next v = some out)
    {a : Nat} {o : HObj} (ha : storeFind σ a = some o) : storeFind out.fst a = some o := by
  obtain ⟨τ, hτ⟩ := sanitizeHVal_extends fuel σ next v out h
  rw [hτ]
  exact storeFind_append_of_some ha

end Logme

namespace Logme

/-- Claim C6: redaction is idempotent, and at the heap level sanitizeBody
never mutates its argument: every store binding present before the call,
in particular every object reachable from the argument, is unchanged
after it; the call only appends fresh clones. -/
theorem C6_sanitize_idempotent_and_unmutating :
    (∀ v : JsonValue, sanitizeBody (sanitizeBody v) = sanitizeBody v) ∧
    (∀ (fuel : Nat) (σ : List (Nat × HObj)) (next : Nat) (v : HVal)
      (out : List (Nat × HObj) × Nat × HVal),
      sanitizeHVal fuel σ next v = some out →
      ∀ a o, storeFind σ a = some o → storeFind out.fst a = some o) :=
  ⟨sanitizeBody_idem, fun _ _ _ _ _ h _ _ ha => sanitizeHVal_preserves h ha⟩

/-- Witness for claim C6: a concrete heap run on an object holding a
password slot leaves the original binding intact, and idempotence holds
at a concrete nested value. -/
theorem C6_sanitize_witness :
    (sanitizeBody (sanitizeBody (.obj [("password", .str "x"), ("nested", .arr [.num 1])])) =
      sanitizeBody (.obj [("password", .str "x"), ("nested", .arr [.num 1])])) ∧
    storeFind
      (([(0, ⟨false, [("password", HVal.str "x")]⟩),
         (5, ⟨false, [("password", HVal.str "[REDACTED]")]⟩)],
        6, HVal.ref 5) : List (Nat × HObj) × Nat × HVal).fst 0 =
      some ⟨false, [("password", HVal.str "x")]⟩ :=
  ⟨C6_sanitize_idempotent_and_unmutating.1 _,
    C6_sanitize_idempotent_and_unmutating.2 2 [(0, ⟨false, [("password", HVal.str "x")]⟩)] 5
      (.ref 0)
      ([(0, ⟨false, [("password", HVal.str "x")]⟩),
        (5, ⟨false, [("password", HVal.str "[REDACTED]")]⟩)], 6, HVal.ref 5)
      rfl 0 ⟨false, [("password", HVal.str "x")]⟩ rfl⟩

/-- Claim C7: on a structured value the redaction filter returns a value
of the same shape where sensitive keys get the marker, other structured
values are redacted recursively and arrays are redacted element-wise;
the concrete payload of the specification redacts as stated; and
non-structured values are returned unchanged. -/
theorem C7_sanitize_structure :
    (∀ fs : List (String × JsonValue), sanitizeBody (.obj fs) = .obj (fs.map fun kv =>
      (kv.fst, if isSensitiveKey kv.fst then .str "[REDACTED]"
               else if isObjectNonNull kv.snd then sanitizeBody kv.snd else kv.snd))) ∧
    (∀ l : List JsonValue, sanitizeBody (.arr l) =
      .arr (l.map fun v => if isObjectNonNull v then sanitizeBody v else v)) ∧
    (sanitizeBody (.obj [("password", .str "x"),
        ("nested", .obj [("token", .str "y"), ("keep", .str "z")])]) =
      .obj [("password", .str "[REDACTED]"),
        ("nested", .obj [("token", .str "[REDACTED]"), ("keep", .str "z")])]) ∧
    (sanitizeBody .null = .null ∧ (∀ b, sanitizeBody (.bool b) = .bool b) ∧
     (∀ n : Int, sanitizeBody (.num n) = .num n) ∧
     (∀ t : String, sanitizeBody (.str t) = .str t)) := by
  refine ⟨?_, ?_, ?_, rfl, ?_, ?_, ?_⟩
  · intro fs; rw [sanitizeBody_obj, sanitizeFields_eq_map]
  · intro l; rw [sanitizeBody_arr, sanitizeElems_eq_map]
  · rfl
  · intro b; cases b <;> rfl
  · intro n; exact sanitizeBody_scalar _ rfl
  · intro t; exact sanitizeBody_scalar _ rfl

end Logme

namespace Logme

theorem length_le_utf8Len_list (l : List Char) : l.length ≤ (l.map Char.utf8Size).sum := by
  induction l with
  | nil => simp
  | cons c t ih =>
    simp only [List.length_cons, List.map_cons, List.sum_cons]
    have := Char.utf8Size_pos c
    omega

theorem length_le_utf8Len (s : String) : s.data.length ≤ utf8Len s :=
  length_le_utf8Len_list s.data

theorem string_append_empty (s : String) : s ++ "" = s := by
  apply String.ext
  rw [String.data_append]
  simp

/-- Corrected claim C8: a 1500-character text body is truncated to its
first 1000 characters plus the marker on both extraction paths; a body
of at most 1000 characters is returned unchanged by the egress path, and
by the ingress path provided its UTF-8 byte length (which is what the
buffer length check of the source compares) is also at most 1000, as it
always is for ASCII text. -/
theorem C8_truncation (s : String) :
    (s.data.length = 1500 →
      fetchTruncateText s = ⟨s.data.take 1000⟩ ++ truncationMarker ∧
      serverTruncateText s = ⟨s.data.take 1000⟩ ++ truncationMarker) ∧
    (s.data.length ≤ 1000 →
      fetchTruncateText s = s ∧ (utf8Len s ≤ 1000 → serverTruncateText s = s)) := by
  have hsub : jsSubstring s 0 1000 = ⟨s.data.take 1000⟩ := by
    rw [jsSubstring]
    simp
  constructor
  · intro hlen
    constructor
    · rw [fetchTruncateText, hsub, if_pos (by omega)]
    · have hbytes : 1000 < utf8Len s := by
        have := length_le_utf8Len s
        omega
      rw [serverTruncateText, hsub, if_pos hbytes]
  · intro hlen
    have htake : (⟨s.data.take 1000⟩ : String) = s := by
      apply String.ext
      exact List.take_of_length_le hlen
    constructor
    · rw [fetchTruncateText, hsub, if_neg (by omega), htake, string_append_empty]
    · intro hbytes
      rw [serverTruncateText, hsub, if_neg (by omega), htake, string_append_empty]

/-- Counterexample to claim C8 as stated: a 251-character body of
four-byte characters has 1004 UTF-8 bytes, so the ingress extraction
appends the truncation marker even though the body has at most 1000
characters and is claimed to be returned unchanged. -/
theorem C8_counterexample :
    (⟨List.replicate 251 '𝄞'⟩ : String).data.length ≤ 1000 ∧
    serverTruncateText ⟨List.replicate 251 '𝄞'⟩ ≠ ⟨List.replicate 251 '𝄞'⟩ := by
  constructor
  · simp
  · decide

/-- Witness for claim C8: both branches of the corrected statement
evaluated at concrete bodies, a 1500-character one and a short one. -/
theorem C8_truncation_witness :
    (fetchTruncateText ⟨List.replicate 1500 'a'⟩ =
        ⟨(List.replicate 1500 'a').take 1000⟩ ++ truncationMarker ∧
      serverTruncateText ⟨List.replicate 1500 'a'⟩ =
        ⟨(List.replicate 1500 'a').take 1000⟩ ++ truncationMarker) ∧
    (fetchTruncateText "ab" = "ab" ∧ (utf8Len "ab" ≤ 1000 → serverTruncateText "ab" = "ab")) :=
  ⟨(C8_truncation ⟨List.replicate 1500 'a'⟩).1 (by simp),
   (C8_truncation "ab").2 (by decide)⟩

end Logme

namespace Logme

/-- Claim C9 fails on the code (code bug): when Math.random() returns
0.5, whose base-36 rendering is the three-character string built from 0,
the dot and the digit for eighteen, generateCorrelationId yields
log-0-i, whose random suffix is a single character; the claimed format,
which the repository's own test asserts, requires exactly eight suffix
characters.  substring(2, 10) never pads, so the contract is violated
whenever the fractional base-36 expansion of the random number has fewer
than eight digits. -/
theorem C9_generateCorrelationId_short_suffix :
    generateCorrelationId "log" 0 [18] = "log-0-i" ∧
    ¬ matchesCidFormat "log" "log-0-i" := by
  constructor
  · decide
  · rintro ⟨ds, suf, heq, hne, _, hlen, _⟩
    have hlens := congrArg List.length heq
    simp only [List.length_append, List.length_cons] at hlens
    have hds : 1 ≤ ds.length := List.length_pos.mpr hne
    have h7 : ("log-0-i".data).length = 7 := by decide
    have h3 : ("log".data).length = 3 := by decide
    omega

end Logme

namespace Logme

/-- Amended claim C2: under a configuration with request and response
logging enabled and the parameters, response-content and call-site
events disabled (the latter either by option or because no stack line
was captured), an egress exchange resolving with a non-2xx status emits
exactly two events: first the request event with the success/info code,
then the response event with the failure/warn code, both on the same
correlation id. -/
theorem C2_nonok_two_events (cfg : FetchLoggerConfig) (url method : String)
    (stack : Option String) (hdrs : JsonValue) (body : Option JsonValue)
    (cid dur now : String) (r : Response)
    (hrr : cfg.logRequestResponse = true) (hp : cfg.logParameters = false)
    (hc : cfg.logResponseContent = false)
    (hfn : cfg.logFunctionName = false ∨ stack = none)
    (hok : r.ok = false) :
    fetchProxyApply cfg url method stack hdrs body cid dur now (.success r) =
      ([{ timestamp := now, code := generateLogCode .FE .FETCH .REQUEST .SEND .SUCCESS .INFO,
          message := method ++ " request to " ++ url, level := .info, correlationId := cid,
          data := some (.obj ([("method", .str method), ("url", .str url)] ++
            optStrField "stack" stack)) },
        { timestamp := now, code := generateLogCode .FE .FETCH .RESPONSE .RECEIVE .FAILURE .WARN,
          message := method ++ " response from " ++ url ++ " with status " ++ natToDecStr r.status,
          level := .warn, correlationId := cid,
          data := some (.obj [("method", .str method), ("url", .str url),
            ("status", .num r.status), ("statusText", .str r.statusText),
            ("duration", .str dur)]) }], .success r) := by
  rcases hfn with hfn | hfn <;>
    simp only [fetchProxyApply, logResponseDetails, emitLog, hrr, hp, hc, hfn, hok, if_true,
      Bool.false_eq_true, if_false, ite_self, List.append_nil, List.nil_append] <;>
    rfl

end Logme

namespace Logme

theorem emitLog_request (msg cid : String) (d : Option JsonValue) (now : String) :
    emitLog fetchRequestLogCode msg cid d now =
      [{ timestamp := now, code := fetchRequestLogCode, message := msg, level := .info,
         correlationId := cid, data := d }] := rfl

theorem emitLog_params (msg cid : String) (d : Option JsonValue) (now : String) :
    emitLog (generateLogCode .FE .FETCH .REQUEST .SEND .SUCCESS .DEBUG) msg cid d now =
      [{ timestamp := now,
         code := generateLogCode .FE .FETCH .REQUEST .SEND .SUCCESS .DEBUG,
         message := msg, level := .debug, correlationId := cid, data := d }] := rfl

theorem emitLog_error (msg cid : String) (d : Option JsonValue) (now : String) :
    emitLog fetchErrorLogCode msg cid d now =
      [{ timestamp := now, code := fetchErrorLogCode, message := msg, level := .error,
         correlationId := cid, data := d }] := rfl

/-- Counterexample to claim C2 as stated: under the default fetch
configuration (which leaves the call-site event enabled) an exchange
with a captured stack line that resolves with status 404 emits three
events for the correlation id, not exactly two. -/
theorem C2_counterexample :
    Response.ok ⟨404, "Not Found", "", .obj [], "", none, ""⟩ = false ∧
    (fetchProxyApply fetchDefaultConfig "https://api.example.com/u" "GET" (some "at f") (.obj [])
        none "cid-1" "1.0ms" "t"
        (.success ⟨404, "Not Found", "", .obj [], "", none, ""⟩)).fst.length = 3 ∧
    ¬ (fetchProxyApply fetchDefaultConfig "https://api.example.com/u" "GET" (some "at f") (.obj [])
        none "cid-1" "1.0ms" "t"
        (.success ⟨404, "Not Found", "", .obj [], "", none, ""⟩)).fst.length = 2 := by
  refine ⟨rfl, rfl, by decide⟩

/-- Witness for the amended claim C2 at a concrete configuration, stack
and 404 response. -/
theorem C2_nonok_two_events_witness :
    fetchProxyApply ⟨false, true, false, false⟩ "https://x" "GET" none (.obj []) none
        "cid-2" "1.0ms" "t" (.success ⟨404, "Not Found", "", .obj [], "", none, ""⟩) =
      ([{ timestamp := "t", code := generateLogCode .FE .FETCH .REQUEST .SEND .SUCCESS .INFO,
          message := "GET" ++ " request to " ++ "https://x", level := .info,
          correlationId := "cid-2",
          data := some (.obj ([("method", .str "GET"), ("url", .str "https://x")] ++
            optStrField "stack" none)) },
        { timestamp := "t", code := generateLogCode .FE .FETCH .RESPONSE .RECEIVE .FAILURE .WARN,
          message := "GET" ++ " response from " ++ "https://x" ++ " with status " ++
            natToDecStr 404,
          level := .warn, correlationId := "cid-2",
          data := some (.obj [("method", .str "GET"), ("url", .str "https://x"),
            ("status", .num 404), ("statusText", .str "Not Found"),
            ("duration", .str "1.0ms")]) }],
        .success ⟨404, "Not Found", "", .obj [], "", none, ""⟩) :=
  C2_nonok_two_events ⟨false, true, false, false⟩ "https://x" "GET" none (.obj []) none
    "cid-2" "1.0ms" "t" ⟨404, "Not Found", "", .obj [], "", none, ""⟩
    rfl rfl rfl (Or.inl rfl) (by decide)

/-- Claim C3: when the underlying call throws and request and response
logging is enabled, the first emitted event is the request event
(success/info), the last is the single error event with error severity,
no response-category event is emitted, at least two events are emitted
(so the request event strictly precedes the error event), the request
and error events carry the same correlation id, and the same thrown
error is re-raised to the caller. -/
theorem C3_thrown_request_then_error (cfg : FetchLoggerConfig) (url method : String)
    (stack : Option String) (hdrs : JsonValue) (body : Option JsonValue)
    (cid dur now : String) (e : JsError)
    (hrr : cfg.logRequestResponse = true) :
    (fetchProxyApply cfg url method stack hdrs body cid dur now (.thrown e)).snd = .thrown e ∧
    2 ≤ (fetchProxyApply cfg url method stack hdrs body cid dur now (.thrown e)).fst.length ∧
    (∃ reqEv, (fetchProxyApply cfg url method stack hdrs body cid dur now
        (.thrown e)).fst.head? = some reqEv ∧
      isFetchRequestEvent reqEv = true ∧ reqEv.level = .info ∧ reqEv.correlationId = cid) ∧
    (∃ errEv, (fetchProxyApply cfg url method stack hdrs body cid dur now
        (.thrown e)).fst.getLast? = some errEv ∧
      isFetchErrorEvent errEv = true ∧ errEv.level = .error ∧ errEv.correlationId = cid) ∧
    (fetchProxyApply cfg url method stack hdrs body cid dur now
      (.thrown e)).fst.countP (fun ev => isFetchErrorEvent ev) = 1 ∧
    (fetchProxyApply cfg url method stack hdrs body cid dur now
      (.thrown e)).fst.countP (fun ev => isResponseEvent ev) = 0 := by
  by_cases hp : cfg.logParameters = true
  · simp only [fetchProxyApply, logRequestParameters, logFetchError, hrr, hp, if_true,
      emitLog_request, emitLog_params, emitLog_error, List.cons_append, List.nil_append]
    refine ⟨trivial, by simp, ⟨_, rfl, rfl, rfl, rfl⟩, ⟨_, rfl, rfl, rfl, rfl⟩, rfl, rfl⟩
  · simp only [Bool.not_eq_true] at hp
    simp only [fetchProxyApply, logRequestParameters, logFetchError, hrr, hp, if_true,
      Bool.false_eq_true, if_false, emitLog_request, emitLog_error, List.append_nil,
      List.cons_append, List.nil_append]
    refine ⟨trivial, by simp, ⟨_, rfl, rfl, rfl, rfl⟩, ⟨_, rfl, rfl, rfl, rfl⟩, rfl, rfl⟩

end Logme

namespace Logme

/-- Witness for claim C3 at the default configuration, a concrete url
and a concrete thrown error. -/
theorem C3_thrown_request_then_error_witness :
    (fetchProxyApply fetchDefaultConfig "https://x" "GET" none (.obj []) none "cid-3" "2.0ms" "t"
        (.thrown ⟨"boom", none⟩)).snd = .thrown ⟨"boom", none⟩ ∧
    2 ≤ (fetchProxyApply fetchDefaultConfig "https://x" "GET" none (.obj []) none "cid-3" "2.0ms"
        "t" (.thrown ⟨"boom", none⟩)).fst.length ∧
    (∃ reqEv, (fetchProxyApply fetchDefaultConfig "https://x" "GET" none (.obj []) none "cid-3"
        "2.0ms" "t" (.thrown ⟨"boom", none⟩)).fst.head? = some reqEv ∧
      isFetchRequestEvent reqEv = true ∧ reqEv.level = .info ∧ reqEv.correlationId = "cid-3") ∧
    (∃ errEv, (fetchProxyApply fetchDefaultConfig "https://x" "GET" none (.obj []) none "cid-3"
        "2.0ms" "t" (.thrown ⟨"boom", none⟩)).fst.getLast? = some errEv ∧
      isFetchErrorEvent errEv = true ∧ errEv.level = .error ∧ errEv.correlationId = "cid-3") ∧
    (fetchProxyApply fetchDefaultConfig "https://x" "GET" none (.obj []) none "cid-3" "2.0ms" "t"
      (.thrown ⟨"boom", none⟩)).fst.countP (fun ev => isFetchErrorEvent ev) = 1 ∧
    (fetchProxyApply fetchDefaultConfig "https://x" "GET" none (.obj []) none "cid-3" "2.0ms" "t"
      (.thrown ⟨"boom", none⟩)).fst.countP (fun ev => isResponseEvent ev) = 0 :=
  C3_thrown_request_then_error fetchDefaultConfig "https://x" "GET" none (.obj []) none
    "cid-3" "2.0ms" "t" ⟨"boom", none⟩ rfl

/-- Claim C10: with request and response logging disabled, a thrown
underlying call still emits the error event, which is then the only
event of the exchange, and the error is re-raised. -/
theorem C10_error_event_without_request_logging (cfg : FetchLoggerConfig) (url method : String)
    (stack : Option String) (hdrs : JsonValue) (body : Option JsonValue)
    (cid dur now : String) (e : JsError)
    (hrr : cfg.logRequestResponse = false) :
    fetchProxyApply cfg url method stack hdrs body cid dur now (.thrown e) =
      ([{ timestamp := now, code := fetchErrorLogCode,
          message := "Error during " ++ method ++ " request to " ++ url, level := .error,
          correlationId := cid,
          data := some (.obj ([("method", .str method), ("url", .str url),
            ("error", .str e.message)] ++ optStrField "stack" e.stack ++
            [("duration", .str dur)] ++ optStrField "calledFrom" stack)) }], .thrown e) := by
  simp only [fetchProxyApply, logFetchError, hrr, Bool.false_eq_true, if_false,
    emitLog_error, List.nil_append]

/-- Witness for claim C10 at a concrete configuration with request and
response logging disabled. -/
theorem C10_error_event_without_request_logging_witness :
    fetchProxyApply ⟨true, false, false, false⟩ "https://x" "GET" none (.obj []) none
        "cid-4" "2.0ms" "t" (.thrown ⟨"boom", none⟩) =
      ([{ timestamp := "t", code := fetchErrorLogCode,
          message := "Error during " ++ "GET" ++ " request to " ++ "https://x", level := .error,
          correlationId := "cid-4",
          data := some (.obj ([("method", .str "GET"), ("url", .str "https://x"),
            ("error", .str (JsError.message ⟨"boom", none⟩))] ++
            optStrField "stack" (JsError.stack ⟨"boom", none⟩) ++
            [("duration", .str "2.0ms")] ++ optStrField "calledFrom" none)) }],
        .thrown ⟨"boom", none⟩) :=
  C10_error_event_without_request_logging ⟨true, false, false, false⟩ "https://x" "GET" none
    (.obj []) none "cid-4" "2.0ms" "t" ⟨"boom", none⟩ rfl

end Logme
